import Mathlib

/-!
Shallow embedding of the L91 motor-control firmware
(src/src/l91_motor.cpp, src/src/l91_motor.h, src/src/main.cpp).

Modelling choices:
* Bytes and frames are `ℕ` and `List ℕ`.
* C `float` arithmetic is modelled by exact rationals `ℚ`; every concrete
  value appearing in the development (1, -1, 1/4, b/127, ...) is chosen so
  that the IEEE-754 single-precision computation and the exact rational
  computation agree on the stated facts.
* The C cast `(int16_t)(float)` truncates toward zero: `truncQ`.
* Storing an `int` into `int16_t` wraps two's-complement: `toInt16`.
* The serial transport is a function `accept : List ℕ → ℕ` giving the number
  of bytes `serial->write` reports for a frame; an operation returns the
  boolean result together with the list of write calls it performed.
-/

namespace Melvin

/-- Truncation toward zero of a rational, the semantics of the C cast
`(int16_t)(speed * 3283.0f)` for in-range values. -/
def truncQ (q : ℚ) : ℤ := if 0 ≤ q then ⌊q⌋ else ⌈q⌉

/-- Two's-complement wrap of an integer into the `int16_t` range
[-32768, 32767], the semantics of storing an `int` into `int16_t`. -/
def toInt16 (n : ℤ) : ℤ := (n + 32768) % 65536 - 32768

/-- Motor CAN IDs from `l91_motor.h` (MOTOR_12_CAN_ID .. MOTOR_14_CAN_ID). -/
def motorIds : List ℕ := [0x0C, 0x0D, 0x0E]

/-- The `int16_t speed_val` computed by `L91Motor::moveJog`
(l91_motor.cpp lines 77-86):
`speed == 0.0f` gives `0x7fff`; `speed > 0.0f` gives
`0x8000 + (int16_t)(speed * 3283.0f)`; otherwise
`0x7fff + (int16_t)(speed * 3283.0f)`; the sum is stored into `int16_t`. -/
def speedVal (speed : ℚ) : ℤ :=
  if speed = 0 then 0x7fff
  else if 0 < speed then toInt16 (0x8000 + toInt16 (truncQ (speed * 3283)))
  else toInt16 (0x7fff + toInt16 (truncQ (speed * 3283)))

/-- The 16-bit wire pattern of `speed_val`: the two emitted bytes
`(speed_val >> 8) & 0xFF` and `speed_val & 0xFF` are the high and low
byte of this value. -/
def speedCode (speed : ℚ) : ℕ := ((speedVal speed) % 65536).toNat

/-- Frame built by `L91Motor::activateMotor` (l91_motor.cpp line 34). -/
def activateFrame (can_id : ℕ) : List ℕ :=
  [0x41, 0x54, 0x00, 0x07, 0xe8, can_id, 0x01, 0x00, 0x0d, 0x0a]

/-- Frame built by `L91Motor::deactivateMotor` (l91_motor.cpp line 42). -/
def deactivateFrame (can_id : ℕ) : List ℕ :=
  [0x41, 0x54, 0x00, 0x07, 0xe8, can_id, 0x00, 0x00, 0x0d, 0x0a]

/-- Frame built by `L91Motor::loadParams` (l91_motor.cpp lines 50-51). -/
def loadParamsFrame (can_id : ℕ) : List ℕ :=
  [0x41, 0x54, 0x20, 0x07, 0xe8, can_id, 0x08, 0x00,
   0xc4, 0x00, 0x00, 0x00, 0x00, 0x00, 0x00, 0x0d, 0x0a]

/-- Frame built by `L91Motor::moveJog` (l91_motor.cpp lines 59-91):
17 bytes are filled in `cmd` and `idx = 17` of them are sent. -/
def moveJogFrame (can_id : ℕ) (speed : ℚ) (flag : ℕ) : List ℕ :=
  [0x41, 0x54, 0x90, 0x07, 0xe8, can_id, 0x08, 0x05, 0x70, 0x00, 0x00, 0x07,
   flag, speedCode speed / 256, speedCode speed % 256, 0x0d, 0x0a]

/-- `L91Motor::sendCommand` (l91_motor.cpp lines 15-30): one
`serial->write(cmd, len)` call; if the reported count differs from `len`
the function returns `false` at once (no retry, no resend), otherwise it
flushes, delays and returns `true`.  The returned list is the sequence of
write calls made. -/
def sendCommand (accept : List ℕ → ℕ) (cmd : List ℕ) : Bool × List (List ℕ) :=
  let written := accept cmd
  if written ≠ cmd.length then (false, [cmd]) else (true, [cmd])

/-- `L91Motor::activateMotor`. -/
def activateMotor (accept : List ℕ → ℕ) (can_id : ℕ) : Bool × List (List ℕ) :=
  sendCommand accept (activateFrame can_id)

/-- `L91Motor::deactivateMotor`. -/
def deactivateMotor (accept : List ℕ → ℕ) (can_id : ℕ) : Bool × List (List ℕ) :=
  sendCommand accept (deactivateFrame can_id)

/-- `L91Motor::loadParams`. -/
def loadParams (accept : List ℕ → ℕ) (can_id : ℕ) : Bool × List (List ℕ) :=
  sendCommand accept (loadParamsFrame can_id)

/-- `L91Motor::moveJog`. -/
def moveJog (accept : List ℕ → ℕ) (can_id : ℕ) (speed : ℚ) (flag : ℕ) :
    Bool × List (List ℕ) :=
  sendCommand accept (moveJogFrame can_id speed flag)

/-- `L91Motor::stopMotor` (l91_motor.cpp lines 96-98). -/
def stopMotor (accept : List ℕ → ℕ) (can_id : ℕ) : Bool × List (List ℕ) :=
  moveJog accept can_id 0 0

/-- `L91Motor::moveMotor` (l91_motor.cpp lines 100-103). -/
def moveMotor (accept : List ℕ → ℕ) (can_id : ℕ) (speed : ℚ) :
    Bool × List (List ℕ) :=
  moveJog accept can_id speed (if speed = 0 then 0 else 1)

/-- An inbound CAN frame: identifier plus payload bytes
(`twai_message_t.identifier`, `data[0..data_length_code)`). -/
structure CANMessage where
  identifier : ℕ
  data : List ℕ

/-- First clamp step of `processCANMessage` (main.cpp line 227):
`if (speed > 1.0f) speed = 1.0f;`. -/
def clampHi (s : ℚ) : ℚ := if 1 < s then 1 else s

/-- Second clamp step of `processCANMessage` (main.cpp line 228):
`if (speed < -1.0f) speed = -1.0f;`. -/
def clampSpeed (s : ℚ) : ℚ := if clampHi s < -1 then -1 else clampHi s

/-- The speed `processCANMessage` computes from payload byte 0
(main.cpp lines 224-228): `((float)message.data[0]) / 127.0f`, then the two
clamps.  `message.data` is an array of `uint8_t`, so the byte is read
unsigned. -/
def bridgeSpeed (b : ℕ) : ℚ := clampSpeed ((b : ℚ) / 127)

/-- `processCANMessage` (main.cpp lines 200-239), restricted to its
translate-and-transmit path: extracts `motor_id = identifier & 0x0F`,
accepts only when `0x0C ≤ motor_id ≤ 0x0E` and at least one payload byte is
present, and then calls `moveMotor`; otherwise the frame is ignored
(`none`), with no error reported. -/
def processCANMessage (accept : List ℕ → ℕ) (msg : CANMessage) :
    Option (Bool × List (List ℕ)) :=
  if 0x0C ≤ msg.identifier % 16 ∧ msg.identifier % 16 ≤ 0x0E ∧
      1 ≤ msg.data.length then
    some (moveMotor accept (msg.identifier % 16) (bridgeSpeed msg.data.headI))
  else
    none

/-! Helper lemmas shared by several results below. -/

/-- The floor of an integer cast into `ℚ` is itself. -/
lemma floor_int_q (z : ℤ) : ⌊(z : ℚ)⌋ = z := Int.floor_intCast z

/-- The ceiling of an integer cast into `ℚ` is itself. -/
lemma ceil_int_q (z : ℤ) : ⌈(z : ℚ)⌉ = z := Int.ceil_intCast z

/-- Closed form of the wire pattern on the positive branch: for
`0 < speed ≤ 1` no two's-complement step changes the value, and the
truncation is a floor, so the pattern is `0x8000 + ⌊speed * 3283⌋`. -/
lemma speedCode_pos (s : ℚ) (h0 : 0 < s) (h1 : s ≤ 1) :
    (speedCode s : ℤ) = 0x8000 + ⌊s * 3283⌋ := by
  have hne : s ≠ 0 := ne_of_gt h0
  have hprod0 : (0:ℚ) ≤ s * 3283 := by positivity
  have hprod1 : s * 3283 ≤ 3283 := by nlinarith
  have hk0 : 0 ≤ ⌊s * 3283⌋ := Int.floor_nonneg.2 hprod0
  have hk1 : ⌊s * 3283⌋ ≤ 3283 := by
    have h := Int.floor_le_floor hprod1
    simpa using h
  rw [speedCode, speedVal, if_neg hne, if_pos h0, truncQ, if_pos hprod0,
    toInt16, toInt16]
  omega

/-- Closed form of the wire pattern on the negative branch: for
`-1 ≤ speed < 0` no two's-complement step changes the value, and the
truncation is a ceiling, so the pattern is `0x7fff + ⌈speed * 3283⌉`. -/
lemma speedCode_neg (s : ℚ) (h0 : s < 0) (h1 : -1 ≤ s) :
    (speedCode s : ℤ) = 0x7fff + ⌈s * 3283⌉ := by
  have hne : s ≠ 0 := ne_of_lt h0
  have hnpos : ¬ 0 < s := not_lt.2 (le_of_lt h0)
  have hprod0 : s * 3283 < 0 := by nlinarith
  have hprodb : (-3283 : ℚ) ≤ s * 3283 := by nlinarith
  have hk0 : ⌈s * 3283⌉ ≤ 0 := Int.ceil_le.2 (by exact_mod_cast le_of_lt hprod0)
  have hk1 : (-3283 : ℤ) ≤ ⌈s * 3283⌉ := by
    exact_mod_cast le_trans hprodb (Int.le_ceil _)
  have hnn : ¬ (0:ℚ) ≤ s * 3283 := not_le.2 hprod0
  rw [speedCode, speedVal, if_neg hne, if_neg hnpos, truncQ, if_neg hnn,
    toInt16, toInt16]
  omega

/-- Full positive speed encodes as pattern `0x8CD3`:
`0x8000 + 3283 = 36051` wrapped through `int16_t` and re-read as the two
emitted bytes. -/
lemma speedCode_one : speedCode 1 = 0x8CD3 := by
  have h := speedCode_pos 1 one_pos le_rfl
  rw [show ((1 : ℚ) * 3283) = ((3283 : ℤ) : ℚ) by norm_num, floor_int_q] at h
  omega

/-- Full negative speed encodes as pattern `0x732C = 0x7fff - 3283`. -/
lemma speedCode_negOne : speedCode (-1) = 0x732C := by
  have h := speedCode_neg (-1) (by norm_num) le_rfl
  rw [show ((-1 : ℚ) * 3283) = ((-3283 : ℤ) : ℚ) by norm_num, ceil_int_q] at h
  omega

/-- A write call is made exactly once per frame, whether or not the
transport accepts all its bytes. -/
lemma sendCommand_writes (accept : List ℕ → ℕ) (cmd : List ℕ) :
    (sendCommand accept cmd).2 = [cmd] := by
  rw [sendCommand]
  split <;> rfl

/-- The clamped bridge speed for a payload byte is within `[0, 1]`. -/
lemma bridgeSpeed_bounds (b : ℕ) :
    0 ≤ bridgeSpeed b ∧ bridgeSpeed b ≤ 1 := by
  have h0 : (0:ℚ) ≤ (b:ℚ) / 127 := by positivity
  rw [bridgeSpeed, clampSpeed, clampHi]
  split_ifs with hA hB hB
  · exact absurd hB (by norm_num)
  · exact ⟨by norm_num, le_rfl⟩
  · exact absurd (lt_of_le_of_lt h0 hB) (by norm_num)
  · exact ⟨h0, not_lt.1 hA⟩

/-- A payload byte of `0x80` produces bridge speed exactly `1`:
`128/127 > 1` triggers the upper clamp. -/
lemma bridgeSpeed_128 : bridgeSpeed 128 = 1 := by
  norm_num [bridgeSpeed, clampSpeed, clampHi]

/-- Claim C1: the spec says payload byte 0 is read as a signed 8-bit value,
so byte `0x80` (-128) should reach the encoder as speed exactly `-1`.  The
code reads `message.data[0]` through `uint8_t`, so `0x80` becomes `128`,
is normalized to `128/127 > 1` and clamped to `+1`: the bridge commands
full forward speed where its own comments ("Convert byte (-128 to 127) to
float speed (-1.0 to 1.0)", main.cpp lines 219 and 223) promise full
reverse. -/
theorem C1_unsigned_payload_eval :
    bridgeSpeed 0x80 = 1 ∧
    processCANMessage (fun l => l.length) ⟨0x0C, [0x80]⟩ =
      some (moveMotor (fun l => l.length) 0x0C 1) ∧
    (1 : ℚ) ≠ -1 := by
  refine ⟨bridgeSpeed_128, ?_, by norm_num⟩
  rw [processCANMessage, if_pos (by exact ⟨by norm_num, by norm_num, by norm_num⟩)]
  rw [show (CANMessage.mk 0x0C [0x80]).data.headI = 128 from rfl]
  rw [show (CANMessage.mk 0x0C [0x80]).identifier % 16 = 0x0C from rfl]
  rw [bridgeSpeed_128]

/-- Claim C2 as stated is false: the positive full-speed pattern is
`0x8CD3`, not `0x80CD` (`0x8000 + 3283 = 0x8000 + 0xCD3`), and the negative
full-speed pattern is `0x732C`, not `0x7294` (`0x7fff - 3283 = 0x732C`). -/
theorem C2_counterexample :
    speedCode 1 = 0x8CD3 ∧ speedCode (-1) = 0x732C ∧
    (0x8CD3 : ℕ) ≠ 0x80CD ∧ (0x732C : ℕ) ≠ 0x7294 :=
  ⟨speedCode_one, speedCode_negOne, by norm_num, by norm_num⟩

/-- Claim C2, amended: for every motor id, `jog(id, 1.0, 1)` encodes the
16-bit speed code `0x8CD3` (`0x8000 + 3283` stored as `int16_t`) and
`jog(id, -1.0, 1)` encodes `0x732C` (`0x7fff - 3283`), emitted big-endian
as the last two payload bytes before the `0x0d 0x0a` terminator. -/
theorem C2_amended (can_id : ℕ) :
    moveJogFrame can_id 1 1 =
      [0x41, 0x54, 0x90, 0x07, 0xe8, can_id, 0x08, 0x05, 0x70, 0x00, 0x00,
       0x07, 0x01, 0x8C, 0xD3, 0x0d, 0x0a] ∧
    moveJogFrame can_id (-1) 1 =
      [0x41, 0x54, 0x90, 0x07, 0xe8, can_id, 0x08, 0x05, 0x70, 0x00, 0x00,
       0x07, 0x01, 0x73, 0x2C, 0x0d, 0x0a] := by
  rw [moveJogFrame, moveJogFrame, speedCode_one, speedCode_negOne]
  norm_num

/-- Claim C3 as stated is false: the code casts via `(int16_t)` and so
truncates toward zero instead of rounding to nearest.  At speed `1/4` the
product is `820.75`: the claimed code is `0x8000 + round(820.75) =
0x8000 + 821`, the actual code is `0x8000 + 820`. -/
theorem C3_counterexample :
    (speedCode (1/4) : ℤ) = 0x8000 + 820 ∧
    round ((1/4 : ℚ) * 3283) = 821 ∧
    (speedCode (1/4) : ℤ) ≠ 0x8000 + round ((1/4 : ℚ) * 3283) := by
  have hfl : ⌊(1/4 : ℚ) * 3283⌋ = 820 := by
    rw [Int.floor_eq_iff]
    norm_num
  have h1 : (speedCode (1/4) : ℤ) = 0x8000 + 820 := by
    rw [speedCode_pos (1/4) (by norm_num) (by norm_num), hfl]
  have h2 : round ((1/4 : ℚ) * 3283) = 821 := by
    rw [round_eq, Int.floor_eq_iff]
    norm_num
  exact ⟨h1, h2, by rw [h1, h2]; norm_num⟩

/-- Claim C3, amended: for speed in `[-1, 1]` the jog speed code is
computed by exactly three branches, with the scaled speed truncated toward
zero (the semantics of the C cast `(int16_t)`) instead of rounded:
`speed = 0` gives `0x7fff`; `speed > 0` gives `0x8000 + ⌊speed * 3283⌋`
(floor is truncation toward zero for a nonnegative product); `speed < 0`
gives `0x7fff + ⌈speed * 3283⌉` (ceiling is truncation toward zero for a
nonpositive product). -/
theorem C3_amended (speed : ℚ) (h1 : -1 ≤ speed) (h2 : speed ≤ 1) :
    (speed = 0 → speedCode speed = 0x7fff) ∧
    (0 < speed → (speedCode speed : ℤ) = 0x8000 + ⌊speed * 3283⌋) ∧
    (speed < 0 → (speedCode speed : ℤ) = 0x7fff + ⌈speed * 3283⌉) := by
  refine ⟨fun h0 => ?_, fun h0 => speedCode_pos speed h0 h2,
    fun h0 => speedCode_neg speed h0 h1⟩
  subst h0
  decide

/-- Witness for C3: at speed `1/2` the hypotheses hold and the positive
branch applies. -/
theorem C3_amended_witness :
    ((-1 : ℚ) ≤ 1/2 ∧ (1/2 : ℚ) ≤ 1) ∧
    (((1/2 : ℚ) = 0 → speedCode (1/2) = 0x7fff) ∧
     ((0 : ℚ) < 1/2 → (speedCode (1/2) : ℤ) = 0x8000 + ⌊(1/2 : ℚ) * 3283⌋) ∧
     ((1/2 : ℚ) < 0 → (speedCode (1/2) : ℤ) = 0x7fff + ⌈(1/2 : ℚ) * 3283⌉)) :=
  ⟨⟨by norm_num, by norm_num⟩, C3_amended (1/2) (by norm_num) (by norm_num)⟩

/-- Claim C4: for every motor id, `activateMotor`, `deactivateMotor` and
`loadParams` emit byte-exact frames of lengths 10, 10 and 17 with the
documented fixed bytes (`0x41 0x54` marker, op-code, `0x07 0xe8` address,
data length, payload, `0x0d 0x0a` terminator); only the byte at index 5
(the motor id) depends on the argument, and each operation writes exactly
its frame. -/
theorem C4_fixed_frames (accept : List ℕ → ℕ) (can_id : ℕ) :
    activateFrame can_id =
      [0x41, 0x54, 0x00, 0x07, 0xe8] ++ [can_id] ++ [0x01, 0x00, 0x0d, 0x0a] ∧
    (activateFrame can_id).length = 10 ∧
    (activateMotor accept can_id).2 = [activateFrame can_id] ∧
    deactivateFrame can_id =
      [0x41, 0x54, 0x00, 0x07, 0xe8] ++ [can_id] ++ [0x00, 0x00, 0x0d, 0x0a] ∧
    (deactivateFrame can_id).length = 10 ∧
    (deactivateMotor accept can_id).2 = [deactivateFrame can_id] ∧
    loadParamsFrame can_id =
      [0x41, 0x54, 0x20, 0x07, 0xe8] ++ [can_id] ++
        [0x08, 0x00, 0xc4, 0x00, 0x00, 0x00, 0x00, 0x00, 0x00, 0x0d, 0x0a] ∧
    (loadParamsFrame can_id).length = 17 ∧
    (loadParams accept can_id).2 = [loadParamsFrame can_id] :=
  ⟨rfl, rfl, sendCommand_writes accept _, rfl, rfl, sendCommand_writes accept _,
   rfl, rfl, sendCommand_writes accept _⟩

/-- Claim C5 as stated is false: in the 17-byte `loadParams` frame the
8-byte payload (indices 7..14) is `00 c4 00 00 00 00 00 00`; its first
byte is `0x00` and the parameter-set selector `0xc4` sits in its second
byte, so the "remaining seven payload bytes" are not all zero. -/
theorem C5_counterexample :
    ((loadParamsFrame 0x0C).drop 7).take 8 =
      [0x00, 0xc4, 0x00, 0x00, 0x00, 0x00, 0x00, 0x00] ∧
    (loadParamsFrame 0x0C)[8]? = some 0xc4 ∧
    (0xc4 : ℕ) ≠ 0 :=
  ⟨rfl, rfl, by norm_num⟩

/-- Claim C5, amended: for every motor id the `loadParams` frame is 17
bytes and its 8-byte payload has first byte `0x00`, the parameter-set
selector `0xc4` as its second byte, and the remaining six bytes zero. -/
theorem C5_amended (can_id : ℕ) :
    (loadParamsFrame can_id).length = 17 ∧
    ((loadParamsFrame can_id).drop 7).take 8 =
      [0x00, 0xc4, 0x00, 0x00, 0x00, 0x00, 0x00, 0x00] :=
  ⟨rfl, rfl⟩

/-- Claim C6: a frame transmission returns success exactly when the
transport accepts the full frame length — a short (or long) report makes
`sendCommand` return `false` with no retry — and in every case exactly one
write of the frame is performed, so no additional bytes are sent. -/
theorem C6_short_write (accept : List ℕ → ℕ) (cmd : List ℕ) :
    ((sendCommand accept cmd).1 = true ↔ accept cmd = cmd.length) ∧
    (sendCommand accept cmd).2 = [cmd] := by
  refine ⟨?_, sendCommand_writes accept cmd⟩
  rw [sendCommand]
  by_cases h : accept cmd = cmd.length <;> simp [h]

/-- Claim C7 as stated is false: the encoding is not strictly increasing
within a sign region, because quantization collapses nearby speeds.  Both
`1/8192` and `1/4096` are positive, `1/8192 < 1/4096 ≤ 1`, yet both encode
to `0x8000` (their products `3283/8192` and `3283/4096` truncate to 0). -/
theorem C7_counterexample :
    (0 : ℚ) < 1/8192 ∧ (1/8192 : ℚ) < 1/4096 ∧ (1/4096 : ℚ) ≤ 1 ∧
    speedCode (1/8192) = speedCode (1/4096) ∧
    ¬ speedCode (1/8192) < speedCode (1/4096) := by
  have e1 : (speedCode (1/8192) : ℤ) = 0x8000 := by
    rw [speedCode_pos (1/8192) (by norm_num) (by norm_num),
      show ⌊(1/8192 : ℚ) * 3283⌋ = 0 by rw [Int.floor_eq_iff]; norm_num]
    norm_num
  have e2 : (speedCode (1/4096) : ℤ) = 0x8000 := by
    rw [speedCode_pos (1/4096) (by norm_num) (by norm_num),
      show ⌊(1/4096 : ℚ) * 3283⌋ = 0 by rw [Int.floor_eq_iff]; norm_num]
    norm_num
  refine ⟨by norm_num, by norm_num, by norm_num, ?_, ?_⟩ <;> omega

/-- Claim C7, amended: within each sign region the jog speed encoding is
monotone non-decreasing — for `speed1 ≤ speed2` in `[-1, 1]` with both
positive or both negative, `encode(speed1) ≤ encode(speed2)`; strictness
fails because the quantization maps distinct nearby speeds to one code. -/
theorem C7_amended (s1 s2 : ℚ) (h1 : -1 ≤ s1) (h2 : s2 ≤ 1) (h12 : s1 ≤ s2)
    (hsign : (0 < s1 ∧ 0 < s2) ∨ (s1 < 0 ∧ s2 < 0)) :
    speedCode s1 ≤ speedCode s2 := by
  have hmul : s1 * 3283 ≤ s2 * 3283 := by nlinarith
  rcases hsign with ⟨hp1, hp2⟩ | ⟨hn1, hn2⟩
  · have e1 := speedCode_pos s1 hp1 (le_trans h12 h2)
    have e2 := speedCode_pos s2 hp2 h2
    have hf : ⌊s1 * 3283⌋ ≤ ⌊s2 * 3283⌋ := Int.floor_le_floor hmul
    omega
  · have e1 := speedCode_neg s1 hn1 h1
    have e2 := speedCode_neg s2 hn2 (le_trans h1 h12)
    have hf : ⌈s1 * 3283⌉ ≤ ⌈s2 * 3283⌉ := Int.ceil_le_ceil hmul
    omega

/-- Witness for C7: speeds `1/4 ≤ 1/2`, both positive and within range,
give non-decreasing codes. -/
theorem C7_amended_witness :
    ((-1 : ℚ) ≤ 1/4 ∧ (1/2 : ℚ) ≤ 1 ∧ (1/4 : ℚ) ≤ 1/2 ∧
      ((0 : ℚ) < 1/4 ∧ (0 : ℚ) < 1/2)) ∧
    speedCode (1/4) ≤ speedCode (1/2) :=
  ⟨⟨by norm_num, by norm_num, by norm_num, by norm_num, by norm_num⟩,
   C7_amended (1/4) (1/2) (by norm_num) (by norm_num) (by norm_num)
     (Or.inl ⟨by norm_num, by norm_num⟩)⟩

/-- Claim C8: an inbound frame whose identifier's low nibble is outside
the motor-id set `{0x0C, 0x0D, 0x0E}`, or whose payload is empty, produces
no call to the frame encoder and no error — `processCANMessage` yields
`none`. -/
theorem C8_ignored (accept : List ℕ → ℕ) (msg : CANMessage)
    (h : msg.identifier % 16 < 0x0C ∨ 0x0E < msg.identifier % 16 ∨
      msg.data.length = 0) :
    processCANMessage accept msg = none := by
  rw [processCANMessage, if_neg]
  intro hc
  rcases hc with ⟨ha, hb, hd⟩
  omega

/-- Witness for C8: identifier `0x05` (low nibble 5) with a one-byte
payload is silently ignored. -/
theorem C8_ignored_witness :
    ((0x05 : ℕ) % 16 < 0x0C) ∧
    processCANMessage (fun l => l.length) ⟨0x05, [0x40]⟩ = none :=
  ⟨by norm_num, C8_ignored (fun l => l.length) ⟨0x05, [0x40]⟩ (Or.inl (by norm_num))⟩

/-- Claim C9: `stopMotor` is `moveJog` at speed 0 with flag 0, `moveMotor`
is `moveJog` with flag 0 exactly when the speed is 0 and flag 1 otherwise,
and consequently `moveMotor` at speed 0 coincides with `stopMotor`
(identical result and identical emitted frame). -/
theorem C9_convenience (accept : List ℕ → ℕ) (can_id : ℕ) (speed : ℚ) :
    stopMotor accept can_id = moveJog accept can_id 0 0 ∧
    moveMotor accept can_id speed =
      moveJog accept can_id speed (if speed = 0 then 0 else 1) ∧
    moveMotor accept can_id 0 = stopMotor accept can_id :=
  ⟨rfl, rfl, by rw [moveMotor, stopMotor, if_pos rfl]⟩

/-- Claim C10: whenever the bridge accepts a frame, the speed it hands to
the encoder is `bridgeSpeed` of payload byte 0, which is non-negative:
the unclamped value `b/127` lies in `[0, 255/127]` for a `uint8_t` byte
and the clamped value in `[0, 1]`, so the encoder is never invoked with a
negative speed. -/
theorem C10_nonneg_speed (accept : List ℕ → ℕ) (msg : CANMessage)
    (hb : msg.data.headI < 256) (r : Bool × List (List ℕ))
    (h : processCANMessage accept msg = some r) :
    0 ≤ ((msg.data.headI : ℕ) : ℚ) / 127 ∧
    ((msg.data.headI : ℕ) : ℚ) / 127 ≤ 255/127 ∧
    0 ≤ bridgeSpeed msg.data.headI ∧ bridgeSpeed msg.data.headI ≤ 1 ∧
    r = moveMotor accept (msg.identifier % 16) (bridgeSpeed msg.data.headI) := by
  have hb255 : ((msg.data.headI : ℕ) : ℚ) ≤ 255 := by
    exact_mod_cast Nat.lt_succ_iff.mp hb
  refine ⟨by positivity, ?_, (bridgeSpeed_bounds _).1, (bridgeSpeed_bounds _).2, ?_⟩
  · linarith
  · rw [processCANMessage] at h
    by_cases hc : 0x0C ≤ msg.identifier % 16 ∧ msg.identifier % 16 ≤ 0x0E ∧
        1 ≤ msg.data.length
    · rw [if_pos hc] at h
      exact (Option.some.inj h).symm
    · rw [if_neg hc] at h
      cases h

/-- Witness for C10: identifier `0x0C` with payload `[0x40]` is accepted
and the encoder receives the non-negative clamped speed `64/127`. -/
theorem C10_nonneg_speed_witness :
    0 ≤ ((64 : ℕ) : ℚ) / 127 ∧
    ((64 : ℕ) : ℚ) / 127 ≤ 255/127 ∧
    0 ≤ bridgeSpeed 64 ∧ bridgeSpeed 64 ≤ 1 ∧
    moveMotor (fun l => l.length) 0x0C (bridgeSpeed 64) =
      moveMotor (fun l => l.length) (0x0C % 16) (bridgeSpeed 64) :=
  C10_nonneg_speed (fun l => l.length) ⟨0x0C, [0x40]⟩ (by norm_num)
    (moveMotor (fun l => l.length) 0x0C (bridgeSpeed 64)) rfl

end Melvin
